import Mathlib

/-!
Verification of the log-to-structured-record extraction engine
(`src/log_processor.py`, class `LogProcessor`) against its specification.

Python strings are modelled as `List Char`.  Each extractor method of the
source is translated into a Lean definition of the same name (minus the
leading underscore, which Lean does not allow).  The Python `re.search`
calls are modelled by a small matching engine that is faithful to the
exact regular expressions appearing in the source:

* the service / error classification patterns are alternations of chains
  of literals separated by `.*` (where `.` does not match a newline and
  matching is case-insensitive, mirroring `re.IGNORECASE`);
* the timestamp / pipeline-name / step-name patterns are sequences of
  literal characters and quantified character classes containing exactly
  one capturing group, searched case-sensitively with Python's leftmost
  + greedy-with-backtracking preference order.

The wall clock used by `datetime.now()` in the timestamp fallback is
modelled by an explicit `now` parameter threaded into the engine.
-/

/-- Python `str.strip()` whitespace (ASCII range, as used by the source). -/
def pyIsSpace (c : Char) : Bool :=
  c == ' ' || c == '\t' || c == '\n' || c == '\r' || c == '\x0b' || c == '\x0c'

/-- Python `line.strip()`: drop leading and trailing whitespace. -/
def pyStrip (l : List Char) : List Char :=
  ((l.dropWhile pyIsSpace).reverse.dropWhile pyIsSpace).reverse

/-- Python `content.split('\n')`. -/
def splitNL (l : List Char) : List (List Char) := l.splitOn '\n'

/-- Python `'\n'.join(parts)`. -/
def joinNL (ps : List (List Char)) : List Char := List.intercalate ['\n'] ps

/-- Python `str.upper()` (ASCII, as used by the source markers). -/
def pyUpper (l : List Char) : List Char := l.map Char.toUpper

/-- Python substring test `w in s`. -/
def containsSub (w : List Char) (s : List Char) : Bool :=
  w.isPrefixOf s ||
  match s with
  | [] => false
  | _ :: s2 => containsSub w s2

/-- Case-insensitive character comparison, mirroring `re.IGNORECASE`. -/
def ciEqc (a b : Char) : Bool := a.toLower == b.toLower

/-- Case-insensitively strip the literal `w` from the front of `s`. -/
def ciPrefix : List Char → List Char → Option (List Char)
  | [], s => some s
  | _ :: _, [] => none
  | a :: w, b :: s => if ciEqc a b then ciPrefix w s else none

theorem ciPrefix_length :
    ∀ (w s t : List Char), ciPrefix w s = some t → t.length ≤ s.length := by
  intro w
  induction w with
  | nil =>
    intro s t h
    simp only [ciPrefix, Option.some.injEq] at h
    simp [← h]
  | cons a w ih =>
    intro s t h
    cases s with
    | nil => simp [ciPrefix] at h
    | cons b s2 =>
      simp only [ciPrefix] at h
      by_cases hc : ciEqc a b = true
      · rw [if_pos hc] at h
        exact Nat.le_succ_of_le (ih s2 t h)
      · rw [if_neg hc] at h
        exact absurd h (by simp)

/-- A chain of literal segments separated by `.*` (one alternative of a
classification pattern). -/
abbrev Chain := List (List Char)

/-- A full classification pattern: an alternation of chains. -/
abbrev BPat := List Chain

/-- Match the chain `ws` somewhere in `s`, where the first segment may be
preceded by a gap containing no newline (the `.*` separator) and each
later segment likewise.  Used after the first segment of a chain has been
anchored: the admissible gap lengths before the next segment are exactly
`0` to the distance to the first newline. -/
def chainSeek (ws : Chain) (s : List Char) : Bool :=
  match ws with
  | [] => true
  | w :: rest =>
    (List.range ((s.takeWhile (fun c => !(c == '\n'))).length + 1)).any
      (fun k =>
        match ciPrefix w (s.drop k) with
        | some s2 => chainSeek rest s2
        | none => false)

/-- Match the chain `ws` with its first segment anchored at the start of
`s` (later segments after newline-free gaps). -/
def chainAt (ws : Chain) (s : List Char) : Bool :=
  match ws with
  | [] => true
  | w :: rest =>
    match ciPrefix w s with
    | some s2 => chainSeek rest s2
    | none => false

/-- Match the chain `ws` anywhere in `s` (the anchor position of a
`re.search` may be preceded by arbitrary text). -/
def searchChain (ws : Chain) (s : List Char) : Bool :=
  chainAt ws s ||
  (match s with
   | [] => false
   | _ :: s2 => searchChain ws s2)

/-- `re.search(pattern, s, re.IGNORECASE) is not None` for a
classification pattern. -/
def reSearchB (p : BPat) (s : List Char) : Bool := p.any (fun ws => searchChain ws s)

/-- `r'airflow|taskinstance\.py'` -/
def airflow_pattern : BPat := [["airflow".data], ["taskinstance.py".data]]

/-- `r'org\.apache\.spark|SparkException'` -/
def emr_pattern : BPat := [["org.apache.spark".data], ["SparkException".data]]

/-- `r'ERROR.*Z.*lambda_handler|botocore\.exceptions'` -/
def lambda_pattern : BPat :=
  [["ERROR".data, "Z".data, "lambda_handler".data], ["botocore.exceptions".data]]

/-- `r'SparkSQLException|databricks|notebook'` -/
def databricks_pattern : BPat :=
  [["SparkSQLException".data], ["databricks".data], ["notebook".data]]

/-- `self.service_patterns`, in declaration (= insertion) order. -/
def service_patterns : List (String × BPat) :=
  [("airflow", airflow_pattern),
   ("emr", emr_pattern),
   ("lambda", lambda_pattern),
   ("databricks", databricks_pattern)]

/-- `r'connection.*timeout|timed out|Connection timed out'` -/
def connection_timeout_pattern : BPat :=
  [["connection".data, "timeout".data], ["timed out".data], ["Connection timed out".data]]

/-- `r'OutOfMemoryError|Java heap space|memory.*exceeded'` -/
def memory_error_pattern : BPat :=
  [["OutOfMemoryError".data], ["Java heap space".data], ["memory".data, "exceeded".data]]

/-- `r'AccessDenied|permission.*denied|not authorized'` -/
def permission_denied_pattern : BPat :=
  [["AccessDenied".data], ["permission".data, "denied".data], ["not authorized".data]]

/-- `r'FileNotFoundException|No such file|does not exist'` -/
def file_not_found_pattern : BPat :=
  [["FileNotFoundException".data], ["No such file".data], ["does not exist".data]]

/-- `r'SQLException|syntax error|PARSE_SYNTAX_ERROR'` -/
def sql_error_pattern : BPat :=
  [["SQLException".data], ["syntax error".data], ["PARSE_SYNTAX_ERROR".data]]

/-- `r'NetworkException|connection refused|Connection refused'` -/
def network_error_pattern : BPat :=
  [["NetworkException".data], ["connection refused".data], ["Connection refused".data]]

/-- `self.error_patterns`, in declaration (= insertion) order. -/
def error_patterns : List (String × BPat) :=
  [("connection_timeout", connection_timeout_pattern),
   ("memory_error", memory_error_pattern),
   ("permission_denied", permission_denied_pattern),
   ("file_not_found", file_not_found_pattern),
   ("sql_error", sql_error_pattern),
   ("network_error", network_error_pattern)]

/-- The `for key, pattern in table.items(): if re.search(...): return key`
loop shared by `_identify_service` and `_classify_error`. -/
def firstKey (table : List (String × BPat)) (content : List Char) (dflt : String) : String :=
  match table with
  | [] => dflt
  | (k, p) :: rest => if reSearchB p content then k else firstKey rest content dflt

/-- `LogProcessor._identify_service` -/
def identify_service (content : List Char) : String :=
  firstKey service_patterns content "unknown"

/-- `LogProcessor._classify_error` -/
def classify_error (content : List Char) : String :=
  firstKey error_patterns content "unknown_error"

/-- Quantifier on a character class: `*`, `+`, or `{n}`. -/
inductive Quant
  | star
  | plus
  | exact (n : Nat)

/-- One atom of a capture pattern: a literal character or a quantified
character class. -/
inductive Atom
  | lit (c : Char)
  | cls (p : Char → Bool) (q : Quant)

/-- The consumption lengths a quantified class may take on `s`, in
Python's preference order (greedy: longest first). -/
def atomRuns (p : Char → Bool) (q : Quant) (s : List Char) : List Nat :=
  match q with
  | .exact n => if n ≤ s.length && (s.take n).all p then [n] else []
  | .star => (List.range ((s.takeWhile p).length + 1)).reverse
  | .plus => ((List.range (s.takeWhile p).length).map (fun k => k + 1)).reverse

/-- All remainders after matching the atom sequence against a prefix of
`s`, in Python's backtracking preference order. -/
def matchAtoms : List Atom → List Char → List (List Char)
  | [], s => [s]
  | .lit c :: rest, s =>
    (match s with
     | [] => []
     | d :: s2 => if d == c then matchAtoms rest s2 else [])
  | .cls p q :: rest, s => (atomRuns p q s).flatMap (fun n => matchAtoms rest (s.drop n))

/-- A regular expression with exactly one capturing group: the atoms
before the group, inside the group, and after the group. -/
structure CPat where
  pre : List Atom
  grp : List Atom
  post : List Atom

/-- The captured group of the preferred match of `pat` anchored at the
start of `s`, if any. -/
def capAt (pat : CPat) (s : List Char) : Option (List Char) :=
  ((matchAtoms pat.pre s).flatMap (fun r1 =>
    (matchAtoms pat.grp r1).flatMap (fun r2 =>
      (matchAtoms pat.post r2).map (fun _ => r1.take (r1.length - r2.length))))).head?

/-- `re.search(pat, s)` returning `match.group(1)`: leftmost anchor
position wins, then Python's preference order at that position. -/
def searchCap (pat : CPat) (s : List Char) : Option (List Char) :=
  match capAt pat s with
  | some g => some g
  | none =>
    match s with
    | [] => none
    | _ :: s2 => searchCap pat s2

/-- `\d{n}` -/
def dN (n : Nat) : Atom := .cls Char.isDigit (.exact n)

/-- `\d+` -/
def dPlus : Atom := .cls Char.isDigit .plus

/-- A run of literal atoms. -/
def lits (w : String) : List Atom := w.data.map Atom.lit

/-- `\s*` -/
def wsStar : Atom := .cls pyIsSpace .star

/-- `\s+` -/
def wsPlus : Atom := .cls pyIsSpace .plus

/-- `[^\s,]+` (also `[^\s,\n]+`, since `\n` is already in `\s`). -/
def notSpaceComma : Atom := .cls (fun c => !(pyIsSpace c || c == ',')) .plus

/-- `[^.]+` -/
def notDot : Atom := .cls (fun c => !(c == '.')) .plus

/-- `[^/]+` -/
def notSlash : Atom := .cls (fun c => !(c == '/')) .plus

/-- `[^.\s]+` -/
def notDotSpace : Atom := .cls (fun c => !(c == '.' || pyIsSpace c)) .plus

/-- `\d{4}-\d{2}-\d{2} \d{2}:\d{2}:\d{2}` -/
def tsCore : List Atom :=
  [dN 4, .lit '-', dN 2, .lit '-', dN 2, .lit ' ', dN 2, .lit ':', dN 2, .lit ':', dN 2]

/-- `r'\[(\d{4}-\d{2}-\d{2} \d{2}:\d{2}:\d{2}),\d+\]'` (Airflow format) -/
def ts_airflow : CPat :=
  { pre := [Atom.lit '['], grp := tsCore, post := [Atom.lit ',', dPlus, Atom.lit ']'] }

/-- `r'(\d{4}-\d{2}-\d{2} \d{2}:\d{2}:\d{2}),\d+'` (EMR format) -/
def ts_emr : CPat :=
  { pre := [], grp := tsCore, post := [Atom.lit ',', dPlus] }

/-- `r'\[ERROR\] (\d{4}-\d{2}-\d{2}T\d{2}:\d{2}:\d{2}\.\d+Z)'` (Lambda format) -/
def ts_lambda : CPat :=
  { pre := lits "[ERROR] ",
    grp := [dN 4, .lit '-', dN 2, .lit '-', dN 2, .lit 'T', dN 2, .lit ':', dN 2,
            .lit ':', dN 2, .lit '.', dPlus, .lit 'Z'],
    post := [] }

/-- `r'(\d{2}/\d{2}/\d{2} \d{2}:\d{2}:\d{2})'` (Databricks format) -/
def ts_databricks : CPat :=
  { pre := [],
    grp := [dN 2, .lit '/', dN 2, .lit '/', dN 2, .lit ' ', dN 2, .lit ':', dN 2,
            .lit ':', dN 2],
    post := [] }

/-- The `patterns` list of `_extract_timestamp`, in source order. -/
def ts_patterns : List CPat := [ts_airflow, ts_emr, ts_lambda, ts_databricks]

/-- The `patterns` list of `_extract_pipeline_name`, in source order. -/
def pipeline_patterns : List CPat :=
  [{ pre := lits "Pipeline:" ++ [wsStar], grp := [notSpaceComma], post := [] },
   { pre := lits "Task" ++ [wsPlus], grp := [notDot, Atom.lit '.', notDot], post := [] },
   { pre := lits "Function:" ++ [wsStar], grp := [notSpaceComma], post := [] },
   { pre := lits "Notebook:" ++ [wsStar, Atom.lit '/', notSlash, Atom.lit '/'],
     grp := [notSlash], post := [] }]

/-- The `patterns` list of `_extract_step_name`, in source order. -/
def step_patterns : List CPat :=
  [{ pre := lits "Step:" ++ [wsStar], grp := [notSpaceComma], post := [] },
   { pre := lits "Task" ++ [wsPlus, notDot, Atom.lit '.'], grp := [notDotSpace], post := [] },
   { pre := lits "Stage" ++ [wsPlus], grp := [dPlus], post := [] },
   { pre := lits "Application:" ++ [wsStar], grp := [notSpaceComma], post := [] }]

/-- The `for pattern in patterns: match = re.search(...); if match:
return match.group(1)` loop shared by the three group extractors. -/
def firstGroup (pats : List CPat) (content : List Char) : Option (List Char) :=
  match pats with
  | [] => none
  | p :: rest =>
    match searchCap p content with
    | some g => some g
    | none => firstGroup rest content

/-- `LogProcessor._extract_timestamp`, with `datetime.now().strftime(...)`
modelled by the explicit `now` parameter. -/
def extract_timestamp (now : List Char) (content : List Char) : List Char :=
  (firstGroup ts_patterns content).getD now

/-- `LogProcessor._extract_pipeline_name` -/
def extract_pipeline_name (content : List Char) : List Char :=
  (firstGroup pipeline_patterns content).getD ("unknown_pipeline".data)

/-- `LogProcessor._extract_step_name` -/
def extract_step_name (content : List Char) : List Char :=
  (firstGroup step_patterns content).getD ("unknown_step".data)

/-- The markers `['ERROR', 'EXCEPTION', 'FAILED']` of `_extract_main_error`. -/
def errorMarkers : List (List Char) := ["ERROR".data, "EXCEPTION".data, "FAILED".data]

/-- `any(keyword in line.upper() for keyword in ['ERROR', 'EXCEPTION', 'FAILED'])` -/
def isErrLine (line : List Char) : Bool :=
  errorMarkers.any (fun w => containsSub w (pyUpper line))

/-- `LogProcessor._extract_main_error` -/
def extract_main_error (content : List Char) : List Char :=
  let error_lines :=
    (splitNL content).foldl
      (fun acc line => if isErrLine line then acc ++ [pyStrip line] else acc) []
  joinNL (error_lines.take 3)

/-- `'Traceback' in line or 'Exception' in line` -/
def headerTest (line : List Char) : Bool :=
  containsSub ("Traceback".data) line || containsSub ("Exception".data) line

/-- `line.strip().startswith('at ') or line.strip().startswith('File ') or '\t' in line` -/
def frameTest (line : List Char) : Bool :=
  ("at ".data).isPrefixOf (pyStrip line) || ("File ".data).isPrefixOf (pyStrip line) ||
    containsSub ['\t'] line

/-- `line.strip() and not any(char in line for char in ['\t', '  at', 'File'])` -/
def breakTest (line : List Char) : Bool :=
  !(pyStrip line).isEmpty &&
    !(containsSub ['\t'] line || containsSub ("  at".data) line ||
      containsSub ("File".data) line)

/-- State of the `_extract_stack_trace` loop: `run in_trace stack_trace`
while iterating, `done stack_trace` once the `break` fired. -/
inductive TState
  | run (inT : Bool) (acc : List (List Char))
  | done (acc : List (List Char))
deriving DecidableEq

/-- One iteration of the `for line in lines` loop of `_extract_stack_trace`. -/
def traceStep (st : TState) (line : List Char) : TState :=
  match st with
  | .done acc => .done acc
  | .run inT acc =>
    if headerTest line then .run true acc
    else if inT && frameTest line then .run inT (acc ++ [pyStrip line])
    else if inT && breakTest line then .done acc
    else .run inT acc

/-- The `stack_trace` list accumulated by a finished loop state. -/
def traceAcc (st : TState) : List (List Char) :=
  match st with
  | .run _ acc => acc
  | .done acc => acc

/-- `LogProcessor._extract_stack_trace` -/
def extract_stack_trace (content : List Char) : List Char :=
  joinNL ((traceAcc ((splitNL content).foldl traceStep (.run false []))).take 10)

/-- `LogProcessor._extract_error_info`: the returned dict, modelled as the
association list of its nine key/value pairs in insertion order.  `now`
models the wall clock read by the timestamp fallback. -/
def extract_error_info (now : List Char) (content : List Char) (file_path : List Char) :
    List (String × List Char) :=
  [("file_path", file_path),
   ("timestamp", extract_timestamp now content),
   ("service", (identify_service content).data),
   ("error_type", (classify_error content).data),
   ("pipeline_name", extract_pipeline_name content),
   ("step_name", extract_step_name content),
   ("error_message", extract_main_error content),
   ("stack_trace", extract_stack_trace content),
   ("full_content", content)]

/-! ### Properties of the text primitives -/

theorem containsSub_iff (w s : List Char) : containsSub w s = true ↔ w <:+: s := by
  induction s with
  | nil =>
    rw [containsSub]
    simp [List.infix_nil, List.prefix_nil]
  | cons c s2 ih =>
    rw [containsSub]
    simp [List.infix_cons_iff, ih, List.isPrefixOf_iff_prefix]

theorem containsSub_intro {w s : List Char} (h : w <:+: s) : containsSub w s = true :=
  (containsSub_iff w s).mpr h

theorem ciPrefix_self_append (w t : List Char) : ciPrefix w (w ++ t) = some t := by
  induction w with
  | nil => rfl
  | cons a w ih => simp [ciPrefix, ciEqc, ih]

theorem chainAt_single_append (w b : List Char) : chainAt [w] (w ++ b) = true := by
  simp [chainAt, ciPrefix_self_append, chainSeek]

theorem searchChain_cons (ws : Chain) (c : Char) (s2 : List Char) :
    searchChain ws (c :: s2) = (chainAt ws (c :: s2) || searchChain ws s2) := rfl

theorem searchChain_of_chainAt {ws : Chain} {s : List Char} (h : chainAt ws s = true) :
    searchChain ws s = true := by
  cases s with
  | nil =>
    rw [show searchChain ws [] = (chainAt ws [] || false) from rfl, h]
    rfl
  | cons c s2 =>
    rw [searchChain_cons, h]
    rfl

theorem searchChain_of_sub (w s : List Char) (h : w <:+: s) :
    searchChain [w] s = true := by
  obtain ⟨pre, suf, rfl⟩ := h
  induction pre with
  | nil => exact searchChain_of_chainAt (chainAt_single_append w suf)
  | cons c pre ih =>
    have he : (c :: pre) ++ w ++ suf = c :: (pre ++ w ++ suf) := by simp
    rw [he, searchChain_cons, ih, Bool.or_true]

theorem reSearchB_of_mem {p : BPat} {ws : Chain} {s : List Char}
    (hm : ws ∈ p) (h : searchChain ws s = true) : reSearchB p s = true :=
  List.any_eq_true.mpr ⟨ws, hm, h⟩

theorem mem_splitOnP_not (p : Char → Bool) :
    ∀ (xs l : List Char), l ∈ List.splitOnP p xs → ∀ a ∈ l, p a = false := by
  intro xs
  induction xs with
  | nil =>
    intro l hl a ha
    rw [List.splitOnP_nil] at hl
    rcases List.mem_singleton.mp hl with rfl
    simp at ha
  | cons x xs ih =>
    intro l hl a ha
    rw [List.splitOnP_cons] at hl
    by_cases hx : p x = true
    · rw [if_pos hx] at hl
      rcases List.mem_cons.mp hl with rfl | h1
      · simp at ha
      · exact ih l h1 a ha
    · rw [if_neg hx] at hl
      rcases hsp : List.splitOnP p xs with _ | ⟨h0, t0⟩
      · exact absurd hsp (List.splitOnP_ne_nil p xs)
      · rw [hsp] at hl
        simp only [List.modifyHead] at hl
        rcases List.mem_cons.mp hl with rfl | h1
        · rcases List.mem_cons.mp ha with rfl | h2
          · exact Bool.eq_false_iff.mpr hx
          · exact ih h0 (by rw [hsp]; exact List.mem_cons_self h0 t0) a h2
        · exact ih l (by rw [hsp]; exact List.mem_cons_of_mem h0 h1) a ha

theorem mem_splitNL_no_newline {s l : List Char} (h : l ∈ splitNL s) : '\n' ∉ l := by
  intro ha
  have hb := mem_splitOnP_not (· == '\n') s l h '\n' ha
  simp at hb

theorem splitNL_joinNL (ps : List (List Char)) (h : ∀ l ∈ ps, '\n' ∉ l) (hne : ps ≠ []) :
    splitNL (joinNL ps) = ps :=
  List.splitOn_intercalate ps '\n' h hne

theorem length_splitNL_joinNL (ps : List (List Char)) (h : ∀ l ∈ ps, '\n' ∉ l) :
    (splitNL (joinNL ps)).length ≤ max 1 ps.length := by
  rcases hps : ps with _ | ⟨a, t⟩
  · subst hps
    simp [joinNL, splitNL, List.intercalate]
  · subst hps
    rw [splitNL_joinNL _ h (by simp)]
    simp

theorem dropWhile_eq_self_of_head (p : Char → Bool) (l : List Char)
    (h : ∀ a ∈ l.head?, p a = false) : List.dropWhile p l = l := by
  cases l with
  | nil => rfl
  | cons c t =>
    rw [List.dropWhile_cons, if_neg]
    simp [h c (by simp)]

theorem pyStrip_prefix_dropWhile (l : List Char) :
    pyStrip l <+: List.dropWhile pyIsSpace l := by
  unfold pyStrip
  have h2 : List.dropWhile pyIsSpace (List.dropWhile pyIsSpace l).reverse <:+
      (List.dropWhile pyIsSpace l).reverse := List.dropWhile_suffix _
  exact List.reverse_suffix.mp (by simpa using h2)

theorem pyStrip_sub (l : List Char) : pyStrip l <:+: l :=
  List.IsInfix.trans ( List.IsPrefix.isInfix (pyStrip_prefix_dropWhile l))
    ( List.IsSuffix.isInfix (List.dropWhile_suffix pyIsSpace))

theorem pyStrip_subset (l : List Char) : pyStrip l ⊆ l :=
  List.IsInfix.subset (pyStrip_sub l)

theorem head?_dropWhile_false (p : Char → Bool) (l : List Char) :
    ∀ a ∈ (List.dropWhile p l).head?, p a = false := by
  induction l with
  | nil =>
    intro a ha
    simp at ha
  | cons c t ih =>
    intro a ha
    rw [List.dropWhile_cons] at ha
    by_cases hc : p c = true
    · rw [if_pos hc] at ha
      exact ih a ha
    · rw [if_neg hc] at ha
      simp only [List.head?_cons, Option.mem_some_iff] at ha
      subst ha
      exact Bool.eq_false_iff.mpr hc

theorem head?_false_of_prefix (p : Char → Bool) {x y : List Char}
    (hy : ∀ a ∈ y.head?, p a = false) (hpre : x <+: y) : ∀ a ∈ x.head?, p a = false := by
  intro a ha
  cases x with
  | nil => simp at ha
  | cons c t =>
    simp only [List.head?_cons, Option.mem_some_iff] at ha
    subst ha
    obtain ⟨u, hu⟩ := hpre
    exact hy c (by rw [← hu]; simp)

theorem pyStrip_head? (l : List Char) : ∀ a ∈ (pyStrip l).head?, pyIsSpace a = false :=
  head?_false_of_prefix _ (head?_dropWhile_false _ _) (pyStrip_prefix_dropWhile l)

theorem pyStrip_eq_self_of (x : List Char)
    (h1 : List.dropWhile pyIsSpace x = x)
    (h2 : List.dropWhile pyIsSpace x.reverse = x.reverse) : pyStrip x = x := by
  unfold pyStrip
  rw [h1, h2, List.reverse_reverse]

theorem pyStrip_idem (l : List Char) : pyStrip (pyStrip l) = pyStrip l := by
  apply pyStrip_eq_self_of
  · exact dropWhile_eq_self_of_head _ _ (pyStrip_head? l)
  · have hrev : (pyStrip l).reverse =
        List.dropWhile pyIsSpace (List.dropWhile pyIsSpace l).reverse := by
      unfold pyStrip
      rw [List.reverse_reverse]
    rw [hrev]
    exact dropWhile_eq_self_of_head _ _ (head?_dropWhile_false _ _)

theorem foldl_collect (q : List Char → Bool) (f : List Char → List Char) :
    ∀ (ls acc : List (List Char)),
      ls.foldl (fun a line => if q line then a ++ [f line] else a) acc =
        acc ++ (ls.filter q).map f := by
  intro ls
  induction ls with
  | nil =>
    intro acc
    simp
  | cons l ls ih =>
    intro acc
    rw [List.foldl_cons, List.filter_cons]
    by_cases hq : q l = true
    · rw [if_pos hq, if_pos hq, ih]
      simp
    · rw [if_neg hq, if_neg hq, ih]

theorem extract_main_error_eq (content : List Char) :
    extract_main_error content =
      joinNL ((((splitNL content).filter isErrLine).map pyStrip).take 3) := by
  unfold extract_main_error
  rw [foldl_collect]
  simp

theorem foldl_traceStep_done (ls : List (List Char)) (acc : List (List Char)) :
    ls.foldl traceStep (.done acc) = .done acc := by
  induction ls with
  | nil => rfl
  | cons l ls ih =>
    rw [List.foldl_cons]
    exact ih

theorem containsSub_strip {w l : List Char} (h : containsSub w (pyStrip l) = true) :
    containsSub w l = true :=
  containsSub_intro ( List.IsInfix.trans ((containsSub_iff _ _).mp h) (pyStrip_sub l))

theorem headerTest_false_strip {line : List Char} (h : headerTest line = false) :
    headerTest (pyStrip line) = false := by
  cases h1 : containsSub ("Traceback".data) (pyStrip line) with
  | false =>
    cases h2 : containsSub ("Exception".data) (pyStrip line) with
    | false => simp [headerTest, h1, h2]
    | true =>
      have hb := containsSub_strip h2
      simp [headerTest, hb] at h
  | true =>
    have hb := containsSub_strip h1
    simp [headerTest, hb] at h

/-- The invariant maintained for every entry of the `stack_trace` buffer:
newline-free, already stripped, and not a `Traceback`/`Exception` header. -/
def goodLine (x : List Char) : Prop :=
  '\n' ∉ x ∧ pyStrip x = x ∧ headerTest x = false

theorem traceStep_good {st : TState} {line : List Char} (hnl : '\n' ∉ line)
    (hst : ∀ x ∈ traceAcc st, goodLine x) :
    ∀ x ∈ traceAcc (traceStep st line), goodLine x := by
  cases st with
  | done acc => exact hst
  | run inT acc =>
    have hred : traceStep (TState.run inT acc) line =
        (if headerTest line then TState.run true acc
         else if inT && frameTest line then TState.run inT (acc ++ [pyStrip line])
         else if inT && breakTest line then TState.done acc
         else TState.run inT acc) := rfl
    rw [hred]
    by_cases h1 : headerTest line = true
    · rw [if_pos h1]
      exact hst
    · rw [if_neg h1]
      by_cases h2 : (inT && frameTest line) = true
      · rw [if_pos h2]
        intro x hx
        rcases List.mem_append.mp hx with hx1 | hx2
        · exact hst x hx1
        · rcases List.mem_singleton.mp hx2 with rfl
          refine ⟨?_, pyStrip_idem line, headerTest_false_strip (Bool.eq_false_iff.mpr h1)⟩
          intro hc
          exact hnl (pyStrip_subset line hc)
      · rw [if_neg h2]
        by_cases h3 : (inT && breakTest line) = true
        · rw [if_pos h3]
          exact hst
        · rw [if_neg h3]
          exact hst

theorem foldl_traceStep_good :
    ∀ (ls : List (List Char)), (∀ l ∈ ls, '\n' ∉ l) →
      ∀ (st : TState), (∀ x ∈ traceAcc st, goodLine x) →
      ∀ x ∈ traceAcc (ls.foldl traceStep st), goodLine x := by
  intro ls
  induction ls with
  | nil =>
    intro _ st hst
    exact hst
  | cons l ls ih =>
    intro hls st hst
    rw [List.foldl_cons]
    exact ih (fun a ha => hls a (List.mem_cons_of_mem l ha))
      (traceStep st l) (traceStep_good (hls l (List.mem_cons_self l ls)) hst)

theorem stack_trace_buffer_good (content : List Char) :
    ∀ x ∈ (traceAcc ((splitNL content).foldl traceStep (.run false []))).take 10,
      goodLine x := by
  intro x hx
  refine foldl_traceStep_good (splitNL content) (fun l hl => mem_splitNL_no_newline hl)
    (.run false []) ?_ x (List.mem_of_mem_take hx)
  intro y hy
  exact absurd hy (List.not_mem_nil y)

theorem lines_of_joinNL {P : List Char → Prop} (hnil : P [])
    {ps : List (List Char)} (hnf : ∀ x ∈ ps, '\n' ∉ x) (h : ∀ x ∈ ps, P x) :
    ∀ l ∈ splitNL (joinNL ps), P l := by
  rcases hps : ps with _ | ⟨a, t⟩
  · intro l hl
    have hsp : splitNL (joinNL []) = [[]] := rfl
    rw [hsp] at hl
    rcases List.mem_singleton.mp hl with rfl
    exact hnil
  · subst hps
    rw [splitNL_joinNL _ hnf (by simp)]
    exact h

theorem firstKey_cons (k : String) (p : BPat) (rest : List (String × BPat))
    (content : List Char) (dflt : String) :
    firstKey ((k, p) :: rest) content dflt =
      (if reSearchB p content then k else firstKey rest content dflt) := rfl

theorem firstKey_eq_find? (table : List (String × BPat)) (content : List Char) (dflt : String) :
    firstKey table content dflt =
      ((table.find? (fun kv => reSearchB kv.2 content)).map Prod.fst).getD dflt := by
  induction table with
  | nil => rfl
  | cons kv rest ih =>
    rcases kv with ⟨k, p⟩
    rw [firstKey_cons]
    by_cases h : reSearchB p content = true
    · rw [if_pos h, List.find?_cons_of_pos _ (by exact h)]
      rfl
    · rw [if_neg h, List.find?_cons_of_neg _ (by simpa using h), ih]

theorem firstKey_eq_dflt (table : List (String × BPat)) (content : List Char) (dflt : String)
    (h : ∀ kv ∈ table, reSearchB kv.2 content = false) :
    firstKey table content dflt = dflt := by
  induction table with
  | nil => rfl
  | cons kv rest ih =>
    rcases kv with ⟨k, p⟩
    rw [firstKey_cons, if_neg (by simp [h (k, p) (List.mem_cons_self _ _)])]
    exact ih (fun a ha => h a (List.mem_cons_of_mem _ ha))

theorem firstGroup_cons (p : CPat) (rest : List CPat) (content : List Char) :
    firstGroup (p :: rest) content =
      (match searchCap p content with
       | some g => some g
       | none => firstGroup rest content) := rfl

theorem firstGroup_eq_none (pats : List CPat) (content : List Char)
    (h : ∀ p ∈ pats, searchCap p content = none) :
    firstGroup pats content = none := by
  induction pats with
  | nil => rfl
  | cons p rest ih =>
    rw [firstGroup_cons, h p (List.mem_cons_self _ _)]
    exact ih (fun a ha => h a (List.mem_cons_of_mem _ ha))

theorem traceStep_run_eq {inT : Bool} {acc : List (List Char)} {line : List Char} :
    traceStep (TState.run inT acc) line =
      (if headerTest line then TState.run true acc
       else if inT && frameTest line then TState.run inT (acc ++ [pyStrip line])
       else if inT && breakTest line then TState.done acc
       else TState.run inT acc) := rfl

theorem traceStep_no_header {line : List Char} (h : headerTest line = false)
    (acc : List (List Char)) :
    traceStep (TState.run false acc) line = TState.run false acc := by
  rw [traceStep_run_eq, if_neg (by simp [h]), if_neg (by simp), if_neg (by simp)]

theorem foldl_trace_no_header (ls : List (List Char)) (h : ∀ l ∈ ls, headerTest l = false) :
    ls.foldl traceStep (.run false []) = .run false [] := by
  induction ls with
  | nil => rfl
  | cons l ls ih =>
    rw [List.foldl_cons, traceStep_no_header (h l (List.mem_cons_self l ls))]
    exact ih (fun a ha => h a (List.mem_cons_of_mem l ha))

theorem main_error_parts_nf (content : List Char) :
    ∀ x ∈ (((splitNL content).filter isErrLine).map pyStrip).take 3, '\n' ∉ x := by
  intro x hx hc
  rcases List.mem_map.mp (List.mem_of_mem_take hx) with ⟨l, hl, rfl⟩
  exact mem_splitNL_no_newline (List.mem_of_mem_filter hl) (pyStrip_subset l hc)

/-! ### The claims -/

/-- Claim C1: for every input string (including the empty string and
arbitrary text) and every wall-clock value, `_extract_error_info` returns
a record containing exactly the nine fields `file_path, timestamp,
service, error_type, pipeline_name, step_name, error_message,
stack_trace, full_content`, in order, each holding a string value (the
value type of the association list).  The Lean translation is a total
function, mirroring that the Python method never raises: every extractor
it calls is itself total. -/
theorem claim_C1 (now content file_path : List Char) :
    ((extract_error_info now content file_path).map Prod.fst =
      ["file_path", "timestamp", "service", "error_type", "pipeline_name",
       "step_name", "error_message", "stack_trace", "full_content"]) ∧
    (extract_error_info now content file_path).length = 9 :=
  ⟨rfl, rfl⟩

/-- Claim C2: both classifiers are first-match-wins over their pattern
tables in declaration order — each returns the key of the earliest table
entry whose pattern matches (the `find?` characterisation), returns the
sentinel `unknown` / `unknown_error` when no pattern matches, and in
particular text matching both the `airflow` (spec: orchestrator) and
`emr` (spec: managed-spark) signatures is classified `airflow` because
that entry is declared first. -/
theorem claim_C2 (content : List Char) :
    (identify_service content =
      ((service_patterns.find? (fun kv => reSearchB kv.2 content)).map Prod.fst).getD
        "unknown") ∧
    (classify_error content =
      ((error_patterns.find? (fun kv => reSearchB kv.2 content)).map Prod.fst).getD
        "unknown_error") ∧
    ((∀ kv ∈ service_patterns, reSearchB kv.2 content = false) →
      identify_service content = "unknown") ∧
    ((∀ kv ∈ error_patterns, reSearchB kv.2 content = false) →
      classify_error content = "unknown_error") ∧
    (reSearchB airflow_pattern content = true → reSearchB emr_pattern content = true →
      identify_service content = "airflow") := by
  refine ⟨firstKey_eq_find? _ _ _, firstKey_eq_find? _ _ _,
    fun h => firstKey_eq_dflt _ _ _ h, fun h => firstKey_eq_dflt _ _ _ h, fun h1 _ => ?_⟩
  unfold identify_service service_patterns
  rw [firstKey_cons, if_pos h1]

theorem claim_C2_witness :
    identify_service ("".data) = "unknown" ∧
    classify_error ("".data) = "unknown_error" ∧
    identify_service ("airflow SparkException".data) = "airflow" :=
  ⟨(claim_C2 _).2.2.1 (by decide), (claim_C2 _).2.2.2.1 (by decide),
   (claim_C2 _).2.2.2.2 (by decide) (by decide)⟩

/-- Claim C5: for every input text, the `error_message` field contains at
most 3 newline-separated lines and the `stack_trace` field contains at
most 10 newline-separated lines. -/
theorem claim_C5 (content : List Char) :
    (splitNL (extract_main_error content)).length ≤ 3 ∧
    (splitNL (extract_stack_trace content)).length ≤ 10 := by
  constructor
  · rw [extract_main_error_eq]
    refine le_trans (length_splitNL_joinNL _ (main_error_parts_nf content)) (max_le ?_ ?_)
    · norm_num
    · exact List.length_take_le _ _
  · unfold extract_stack_trace
    refine le_trans
      (length_splitNL_joinNL _ (fun x hx => (stack_trace_buffer_good content x hx).1))
      (max_le ?_ ?_)
    · norm_num
    · exact List.length_take_le _ _

/-- Claim C6: the error-message extractor scans the lines in order,
selects exactly those whose upper-cased form contains `ERROR`,
`EXCEPTION` or `FAILED`, strips each selected line, and returns the
first three joined by newline (fewer if fewer qualify, the empty string
if none — `joinNL []` is the empty string). -/
theorem claim_C6 (content : List Char) :
    (extract_main_error content =
      joinNL ((((splitNL content).filter isErrLine).map pyStrip).take 3)) ∧
    (∀ l : List Char, isErrLine l =
      (containsSub ("ERROR".data) (pyUpper l) ||
        (containsSub ("EXCEPTION".data) (pyUpper l) ||
          containsSub ("FAILED".data) (pyUpper l)))) := by
  constructor
  · exact extract_main_error_eq content
  · intro l
    simp [isErrLine, errorMarkers, List.any_cons, List.any_nil]

/-- Claim C7: the timestamp extractor tries its four format-specific
patterns in the fixed source order (bracketed Airflow format, unbracketed
EMR format, Lambda ISO-8601 format after an `[ERROR]` tag, two-digit-year
Databricks format) and, whenever at least one matches, returns the
captured group of the first matching pattern verbatim; only when all four
fail does it fall back to the wall clock (`now`). -/
theorem claim_C7 (now content : List Char) :
    (∀ g, searchCap ts_airflow content = some g → extract_timestamp now content = g) ∧
    (searchCap ts_airflow content = none →
      ∀ g, searchCap ts_emr content = some g → extract_timestamp now content = g) ∧
    (searchCap ts_airflow content = none → searchCap ts_emr content = none →
      ∀ g, searchCap ts_lambda content = some g → extract_timestamp now content = g) ∧
    (searchCap ts_airflow content = none → searchCap ts_emr content = none →
      searchCap ts_lambda content = none →
      ∀ g, searchCap ts_databricks content = some g → extract_timestamp now content = g) ∧
    (searchCap ts_airflow content = none → searchCap ts_emr content = none →
      searchCap ts_lambda content = none → searchCap ts_databricks content = none →
      extract_timestamp now content = now) := by
  unfold extract_timestamp ts_patterns
  refine ⟨?_, ?_, ?_, ?_, ?_⟩
  · intro g h1
    rw [firstGroup_cons, h1]
    rfl
  · intro h1 g h2
    rw [firstGroup_cons, h1, firstGroup_cons, h2]
    rfl
  · intro h1 h2 g h3
    rw [firstGroup_cons, h1, firstGroup_cons, h2, firstGroup_cons, h3]
    rfl
  · intro h1 h2 h3 g h4
    rw [firstGroup_cons, h1, firstGroup_cons, h2, firstGroup_cons, h3, firstGroup_cons, h4]
    rfl
  · intro h1 h2 h3 h4
    rw [firstGroup_cons, h1, firstGroup_cons, h2, firstGroup_cons, h3, firstGroup_cons, h4]
    rfl

theorem claim_C7_witness :
    extract_timestamp ("X".data) ("[2024-01-02 03:04:05,6] boom".data) =
      "2024-01-02 03:04:05".data :=
  (claim_C7 ("X".data) ("[2024-01-02 03:04:05,6] boom".data)).1
    ("2024-01-02 03:04:05".data) (by decide)

/-- Claim C9: running the extraction twice on identical input yields
records that agree on every field except possibly `timestamp` (only the
`now` parameter differs between the two runs), and even the `timestamp`
fields agree whenever one of the four timestamp patterns matches the
input, i.e. whenever the wall-clock fallback is not taken.  All
extractors other than the timestamp fallback are pure functions of the
text. -/
theorem claim_C9 (now1 now2 content file_path : List Char) :
    (∀ k : String, k ≠ "timestamp" →
      List.lookup k (extract_error_info now1 content file_path) =
        List.lookup k (extract_error_info now2 content file_path)) ∧
    ((firstGroup ts_patterns content).isSome →
      extract_error_info now1 content file_path =
        extract_error_info now2 content file_path) := by
  constructor
  · intro k hk
    have hkb : (k == "timestamp") = false := by
      simp only [beq_eq_false_iff_ne, ne_eq]
      exact hk
    simp only [extract_error_info, List.lookup, hkb]
  · intro h
    rcases Option.isSome_iff_exists.mp h with ⟨g, hg⟩
    have ht : extract_timestamp now1 content = extract_timestamp now2 content := by
      unfold extract_timestamp
      rw [hg]
      rfl
    simp [extract_error_info, ht]

theorem claim_C9_witness :
    List.lookup "service"
        (extract_error_info ("A".data) ("[2024-01-02 03:04:05,6]".data) []) =
      List.lookup "service"
        (extract_error_info ("B".data) ("[2024-01-02 03:04:05,6]".data) []) ∧
    extract_error_info ("A".data) ("[2024-01-02 03:04:05,6]".data) [] =
      extract_error_info ("B".data) ("[2024-01-02 03:04:05,6]".data) [] :=
  ⟨(claim_C9 ("A".data) ("B".data) ("[2024-01-02 03:04:05,6]".data) []).1 "service"
      (by decide),
   (claim_C9 ("A".data) ("B".data) ("[2024-01-02 03:04:05,6]".data) []).2 (by decide)⟩

/-- Claim C8: for input text matching none of the known patterns or
markers (no service signature, no error signature, no timestamp pattern,
no pipeline/step pattern, no `ERROR`/`EXCEPTION`/`FAILED` line, no
`Traceback`/`Exception` line — e.g. the empty string, see the witness),
the record carries the sentinels `unknown`, `unknown_error`,
`unknown_pipeline`, `unknown_step`, the empty `error_message` and
`stack_trace`, and the wall-clock fallback timestamp. -/
theorem claim_C8 (now content file_path : List Char)
    (hsv : ∀ kv ∈ service_patterns, reSearchB kv.2 content = false)
    (her : ∀ kv ∈ error_patterns, reSearchB kv.2 content = false)
    (hts : ∀ p ∈ ts_patterns, searchCap p content = none)
    (hpl : ∀ p ∈ pipeline_patterns, searchCap p content = none)
    (hst : ∀ p ∈ step_patterns, searchCap p content = none)
    (hml : ∀ l ∈ splitNL content, isErrLine l = false)
    (hhd : ∀ l ∈ splitNL content, headerTest l = false) :
    List.lookup "service" (extract_error_info now content file_path) =
      some ("unknown".data) ∧
    List.lookup "error_type" (extract_error_info now content file_path) =
      some ("unknown_error".data) ∧
    List.lookup "pipeline_name" (extract_error_info now content file_path) =
      some ("unknown_pipeline".data) ∧
    List.lookup "step_name" (extract_error_info now content file_path) =
      some ("unknown_step".data) ∧
    List.lookup "error_message" (extract_error_info now content file_path) = some [] ∧
    List.lookup "stack_trace" (extract_error_info now content file_path) = some [] ∧
    List.lookup "timestamp" (extract_error_info now content file_path) = some now := by
  have h1 : identify_service content = "unknown" := firstKey_eq_dflt _ _ _ hsv
  have h2 : classify_error content = "unknown_error" := firstKey_eq_dflt _ _ _ her
  have h3 : extract_timestamp now content = now := by
    unfold extract_timestamp
    rw [firstGroup_eq_none _ _ hts]
    rfl
  have h4 : extract_pipeline_name content = "unknown_pipeline".data := by
    unfold extract_pipeline_name
    rw [firstGroup_eq_none _ _ hpl]
    rfl
  have h5 : extract_step_name content = "unknown_step".data := by
    unfold extract_step_name
    rw [firstGroup_eq_none _ _ hst]
    rfl
  have h6 : extract_main_error content = [] := by
    rw [extract_main_error_eq,
      List.filter_eq_nil_iff.mpr (fun a ha => by simp [hml a ha])]
    rfl
  have h7 : extract_stack_trace content = [] := by
    unfold extract_stack_trace
    rw [foldl_trace_no_header _ hhd]
    rfl
  refine ⟨?_, ?_, ?_, ?_, ?_, ?_, ?_⟩ <;>
    simp [extract_error_info, List.lookup, h1, h2, h3, h4, h5, h6, h7]

theorem claim_C8_witness :
    List.lookup "service" (extract_error_info ("T".data) [] []) = some ("unknown".data) ∧
    List.lookup "pipeline_name" (extract_error_info ("T".data) [] []) =
      some ("unknown_pipeline".data) ∧
    List.lookup "stack_trace" (extract_error_info ("T".data) [] []) = some [] ∧
    List.lookup "timestamp" (extract_error_info ("T".data) [] []) = some ("T".data) := by
  have h := claim_C8 ("T".data) [] [] (by decide) (by decide) (by decide) (by decide)
    (by decide) (by decide) (by decide)
  exact ⟨h.1, h.2.2.1, h.2.2.2.2.2.1, h.2.2.2.2.2.2⟩

/-- The break condition as claim C4 states it: a non-empty line that
fails the frame-line test and does not itself contain `Traceback` or
`Exception`. -/
def claimBreak (line : List Char) : Bool :=
  !(pyStrip line).isEmpty && !frameTest line && !headerTest line

/-- Claim C4 counterexample input: the middle line is non-empty, is not a
frame line, and contains neither `Traceback` nor `Exception`, so by the
claim the trace region ends there and nothing is ever collected — yet the
code collects the following frame line, because the middle line contains
the substring `File` and therefore fails the source's `break` condition
`not any(char in line for char in ['\t', '  at', 'File'])` and is merely
skipped. -/
def c4_input : List Char := "Exception\nFileNotFoundError: x\n\tat foo".data

/-- Claim C4 is false as stated: on `c4_input` the second line satisfies
the claim's break condition while the machine is `inside_trace`, yet the
step does not end the region (the state stays `run true []`) and the
extractor still collects the later frame line `at foo` (the claim would
force an empty trace). -/
theorem claim_C4_counterexample :
    claimBreak ("FileNotFoundError: x".data) = true ∧
    splitNL c4_input =
      ["Exception".data, "FileNotFoundError: x".data, "\tat foo".data] ∧
    traceStep (TState.run true []) ("FileNotFoundError: x".data) = TState.run true [] ∧
    extract_stack_trace c4_input = "at foo".data ∧
    ("at foo".data : List Char) ≠ [] := by
  refine ⟨by decide, by decide, by decide, by decide, by decide⟩

/-- Claim C4 as amended: while `inside_trace`, a line ends the trace
region (and the whole extraction — the `done` state is absorbing, so no
further lines are ever collected) precisely when it is non-empty, fails
the frame-line test, does not contain `Traceback` or `Exception`, and
additionally contains neither of the substrings `File` and `'  at'`
anywhere in the raw line; a non-empty non-frame line containing `File`
or `'  at'` is skipped without ending the region, and collection can
resume at a later frame line. -/
theorem claim_C4_amended (acc : List (List Char)) (line : List Char)
    (ls : List (List Char)) :
    (traceStep (TState.run true acc) line = TState.done acc ↔
      (claimBreak line = true ∧ containsSub ("File".data) line = false ∧
        containsSub ("  at".data) line = false)) ∧
    (List.foldl traceStep (TState.done acc) ls = TState.done acc) ∧
    (∀ l2, traceStep (TState.done acc) l2 = TState.done acc) := by
  refine ⟨?_, foldl_traceStep_done ls acc, fun l2 => rfl⟩
  rw [traceStep_run_eq]
  cases hh : headerTest line <;>
    cases hA : ("at ".data).isPrefixOf (pyStrip line) <;>
      cases hF : ("File ".data).isPrefixOf (pyStrip line) <;>
        cases hT : containsSub ['\t'] line <;>
          cases hE : (pyStrip line).isEmpty <;>
            cases hat : containsSub ("  at".data) line <;>
              cases hfi : containsSub ("File".data) line <;>
                simp [frameTest, breakTest, claimBreak, hh, hA, hF, hT, hE, hat, hfi]

theorem claim_C4_witness :
    traceStep (TState.run true []) ("boom".data) = TState.done [] ∧
    List.foldl traceStep (TState.done []) ["\tat x".data] = TState.done [] :=
  ⟨(claim_C4_amended [] ("boom".data) []).1.mpr (by decide),
   (claim_C4_amended [] ("boom".data) ["\tat x".data]).2.1⟩

/-- Claim C10 counterexample input: the line `a<TAB>b` qualifies as a
frame line solely because it contains a tab character. -/
def c10_input : List Char := "Exception\na\tb".data

/-- Claim C10 is false as stated: stripping removes only leading and
trailing whitespace, so a tab interior to a line — which is exactly what
qualified the line as a frame line, since the `at `/`File ` prefix tests
fail — survives into the `stack_trace` output verbatim. -/
theorem claim_C10_counterexample :
    frameTest ("a\tb".data) = true ∧
    containsSub ['\t'] ("a\tb".data) = true ∧
    ("at ".data).isPrefixOf (pyStrip ("a\tb".data)) = false ∧
    ("File ".data).isPrefixOf (pyStrip ("a\tb".data)) = false ∧
    extract_stack_trace c10_input = "a\tb".data ∧
    '\t' ∈ ("a\tb".data : List Char) := by
  refine ⟨by decide, by decide, by decide, by decide, by decide, by decide⟩

/-- Claim C10 as amended: every line placed into the `error_message` and
`stack_trace` outputs is individually stripped of leading and trailing
whitespace before joining (each output line is a fixed point of the
strip), so leading indentation — including leading tabs — never appears;
a tab interior to a line may survive even when it is what qualified the
line as a frame line (see the counterexample); and stack-trace header
lines (those containing `Traceback` or `Exception`) are themselves never
included in the `stack_trace` output. -/
theorem claim_C10_amended (content : List Char) :
    (∀ l ∈ splitNL (extract_main_error content), pyStrip l = l) ∧
    (∀ l ∈ splitNL (extract_stack_trace content),
      pyStrip l = l ∧ headerTest l = false) := by
  constructor
  · rw [extract_main_error_eq]
    refine lines_of_joinNL (P := fun l => pyStrip l = l) rfl (main_error_parts_nf content) ?_
    intro x hx
    rcases List.mem_map.mp (List.mem_of_mem_take hx) with ⟨l, _, rfl⟩
    exact pyStrip_idem l
  · unfold extract_stack_trace
    refine lines_of_joinNL (P := fun l => pyStrip l = l ∧ headerTest l = false) ⟨rfl, rfl⟩
      (fun x hx => (stack_trace_buffer_good content x hx).1) ?_
    intro x hx
    exact ⟨(stack_trace_buffer_good content x hx).2.1,
      (stack_trace_buffer_good content x hx).2.2⟩

theorem claim_C10_amended_witness :
    pyStrip ("at x".data) = "at x".data ∧
    headerTest ("at x".data) = false ∧
    pyStrip ("ERROR y".data) = "ERROR y".data :=
  ⟨((claim_C10_amended ("Exception\n\tat x\nERROR y".data)).2 ("at x".data) (by decide)).1,
   ((claim_C10_amended ("Exception\n\tat x\nERROR y".data)).2 ("at x".data) (by decide)).2,
   (claim_C10_amended ("Exception\n\tat x\nERROR y".data)).1 ("ERROR y".data) (by decide)⟩

/-- The scenario input of claim C3. -/
def c3_scenario : List Char :=
  "airflow\nPipeline: data_ingestion_dag\nStep: extract_user_data\nConnection timed out".data

/-- Claim C3 counterexample input: it contains the substring `airflow`,
the full line `Pipeline: data_ingestion_dag`, the full line
`Step: extract_user_data` and the text `Connection timed out`, but an
earlier `Pipeline: x` line precedes them. -/
def c3_cex : List Char :=
  "Pipeline: x\nairflow\nPipeline: data_ingestion_dag\nStep: extract_user_data\nConnection timed out".data

/-- Claim C3 is false as stated: `c3_cex` satisfies every containment
hypothesis of the claim, yet `re.search` returns the leftmost match of
the `Pipeline:` pattern, so the extracted pipeline name is `x`, not
`data_ingestion_dag`. -/
theorem claim_C3_counterexample :
    ("airflow".data : List Char) <:+: c3_cex ∧
    ("Pipeline: data_ingestion_dag".data : List Char) ∈ splitNL c3_cex ∧
    ("Step: extract_user_data".data : List Char) ∈ splitNL c3_cex ∧
    ("Connection timed out".data : List Char) <:+: c3_cex ∧
    extract_pipeline_name c3_cex = "x".data ∧
    ("x".data : List Char) ≠ "data_ingestion_dag".data := by
  refine ⟨⟨"Pipeline: x\n".data, "\nPipeline: data_ingestion_dag\nStep: extract_user_data\nConnection timed out".data, by decide⟩,
    by decide, by decide,
    ⟨"Pipeline: x\nairflow\nPipeline: data_ingestion_dag\nStep: extract_user_data\n".data, [], by decide⟩,
    by decide, by decide⟩

/-- Claim C3 as amended: for any input containing the substring
`airflow` the record's service is `airflow` (the spec's orchestrator
category), and for any input containing the text `Connection timed out`
the record's error type is `connection_timeout` — both hold universally
because those table entries are declared first; the pipeline-name and
step-name conclusions, by contrast, hold only when no earlier text
matches the respective pattern cascade (the counterexample shows an
earlier `Pipeline:` occurrence wins), in particular for the scenario
input itself. -/
theorem claim_C3_amended (now file_path content : List Char) :
    (("airflow".data : List Char) <:+: content →
      List.lookup "service" (extract_error_info now content file_path) =
        some ("airflow".data)) ∧
    (("Connection timed out".data : List Char) <:+: content →
      List.lookup "error_type" (extract_error_info now content file_path) =
        some ("connection_timeout".data)) ∧
    (content = c3_scenario →
      List.lookup "pipeline_name" (extract_error_info now content file_path) =
        some ("data_ingestion_dag".data) ∧
      List.lookup "step_name" (extract_error_info now content file_path) =
        some ("extract_user_data".data)) := by
  refine ⟨?_, ?_, ?_⟩
  · intro h
    have hm : reSearchB airflow_pattern content = true :=
      reSearchB_of_mem (List.mem_cons_self _ _) (searchChain_of_sub _ _ h)
    have hs : identify_service content = "airflow" := by
      unfold identify_service service_patterns
      rw [firstKey_cons, if_pos hm]
    simp [extract_error_info, List.lookup, hs]
  · intro h
    have hto : ("timed out".data : List Char) <:+: content :=
      List.IsInfix.trans ⟨"Connection ".data, [], by decide⟩ h
    have hm : reSearchB connection_timeout_pattern content = true :=
      reSearchB_of_mem (by decide) (searchChain_of_sub _ _ hto)
    have hs : classify_error content = "connection_timeout" := by
      unfold classify_error error_patterns
      rw [firstKey_cons, if_pos hm]
    simp [extract_error_info, List.lookup, hs]
  · rintro rfl
    have hp : extract_pipeline_name c3_scenario = "data_ingestion_dag".data := by decide
    have hq : extract_step_name c3_scenario = "extract_user_data".data := by decide
    exact ⟨by simp [extract_error_info, List.lookup, hp],
      by simp [extract_error_info, List.lookup, hq]⟩

theorem claim_C3_witness :
    List.lookup "service" (extract_error_info [] c3_scenario []) =
      some ("airflow".data) ∧
    List.lookup "error_type" (extract_error_info [] c3_scenario []) =
      some ("connection_timeout".data) ∧
    List.lookup "pipeline_name" (extract_error_info [] c3_scenario []) =
      some ("data_ingestion_dag".data) ∧
    List.lookup "step_name" (extract_error_info [] c3_scenario []) =
      some ("extract_user_data".data) :=
  ⟨(claim_C3_amended [] [] c3_scenario).1 ⟨[], "\nPipeline: data_ingestion_dag\nStep: extract_user_data\nConnection timed out".data, by decide⟩,
   (claim_C3_amended [] [] c3_scenario).2.1 ⟨"airflow\nPipeline: data_ingestion_dag\nStep: extract_user_data\n".data, [], by decide⟩,
   ((claim_C3_amended [] [] c3_scenario).2.2 rfl).1,
   ((claim_C3_amended [] [] c3_scenario).2.2 rfl).2⟩
